import Mathlib

/-
Verification of the record-editing surface of the lektor admin client.

The development shallowly embeds the two stateful components of the
reviewed code:

* `EditPage` (src/lektor/admin/static/js/views/EditPage.jsx): loads a raw
  record for the routed path, keeps pending user edits, renders the form
  fields and resolves submission values.
* `BreadCrumbs` (the unnamed source file): renders the ancestor-chain
  trail with a fallback link and an optional add-child affordance.

JavaScript objects used as string-keyed records are embedded as
association lists over an inductive `JsValue` type; `undefined` is
modelled by `Option` at every use site.  The asynchronous load protocol
of `EditPage` is embedded as an event-driven transition system: a
component carries the routed path, its React state and the list of
in-flight rawrecord requests, and events deliver prop changes, response
resolutions, rejections and widget edits in any order the event loop
could produce.
-/

set_option maxHeartbeats 1000000

namespace Lektor

/-- JavaScript values as they occur in record data: strings, integers,
booleans and null.  `undefined` is modelled by `Option JsValue` at use
sites, never as a value stored in an object. -/
inductive JsValue where
  | str (s : String)
  | num (n : Int)
  | jsBool (b : Bool)
  | jsNull
deriving DecidableEq, Repr

/-- JavaScript falsiness restricted to the modelled values: the empty
string, zero, false and null are falsy. -/
def JsValue.falsy : JsValue → Bool
  | .str s => s == ""
  | .num n => n == 0
  | .jsBool b => !b
  | .jsNull => true

/-- The JavaScript expression `v || d`. -/
def jsOr (v d : JsValue) : JsValue :=
  if v.falsy then d else v

/-- Property read `m[k]` on a JavaScript object embedded as an
association list; `none` models `undefined`. -/
def jsLookup (m : List (String × JsValue)) (k : String) : Option JsValue :=
  match m with
  | [] => none
  | (k', v) :: rest => if k' = k then some v else jsLookup rest k

/-- Copy-on-write update of key `k` to `v`, replacing an existing entry
or appending a fresh one: the embedding of `React.addons.update` with a
single set command, which returns a new object and leaves the input
untouched. -/
def setKey (m : List (String × JsValue)) (k : String) (v : JsValue) :
    List (String × JsValue) :=
  match m with
  | [] => [(k, v)]
  | (k', v') :: rest =>
      if k' = k then (k, v) :: rest else (k', v') :: setKey rest k v

theorem jsLookup_setKey_self (m : List (String × JsValue)) (k : String)
    (v : JsValue) : jsLookup (setKey m k v) k = some v := by
  induction m with
  | nil => simp [setKey, jsLookup]
  | cons hd tl ih =>
      obtain ⟨k', v'⟩ := hd
      by_cases h : k' = k <;> simp [setKey, jsLookup, h, ih]

theorem jsLookup_setKey_ne (m : List (String × JsValue)) (k k' : String)
    (v : JsValue) (h : k' ≠ k) :
    jsLookup (setKey m k v) k' = jsLookup m k' := by
  have hne : ¬k = k' := fun hh => h hh.symm
  induction m with
  | nil => simp [setKey, jsLookup, hne]
  | cons hd tl ih =>
      obtain ⟨k0, v0⟩ := hd
      by_cases h0 : k0 = k
      · subst h0
        simp [setKey, jsLookup, hne]
      · simp [setKey, jsLookup, h0, ih]

/-- One field descriptor of a record schema, as delivered in
`datamodel.fields`. -/
structure Field where
  name : String
  label : String
  type : String
deriving DecidableEq, Repr

/-- A record schema (`datamodel`): the ordered field list. -/
structure DataModel where
  fields : List Field
deriving DecidableEq, Repr

/-- The `record_info` part of a rawrecord response. -/
structure RecordInfo where
  «exists» : Bool
  label : String
  id : String
deriving DecidableEq, Repr

/-- A `/rawrecord` response: raw field data, the schema and the record
metadata. -/
structure RawRecordResp where
  data : List (String × JsValue)
  datamodel : DataModel
  record_info : RecordInfo
deriving DecidableEq, Repr

/-- The React state of `EditPage`; all four keys are `null` in
`getInitialState`. -/
structure EditorState where
  recordInitialData : Option (List (String × JsValue))
  recordData : Option (List (String × JsValue))
  recordDataModel : Option DataModel
  recordInfo : Option RecordInfo
deriving DecidableEq, Repr

/-- `getInitialState`: every state key starts out `null`. -/
def getInitialState : EditorState :=
  { recordInitialData := none
    recordData := none
    recordDataModel := none
    recordInfo := none }

/-- The `setState` performed when a rawrecord load resolves: all four
state keys are replaced from the response, and in particular
`recordData` (the pending edits) is reset to the empty object.  Since
the state has exactly these four keys, the result does not depend on the
previous state. -/
def applyResponse (resp : RawRecordResp) : EditorState :=
  { recordInitialData := some resp.data
    recordData := some []
    recordDataModel := some resp.datamodel
    recordInfo := some resp.record_info }

/-- The `isHiddenField` switch of EditPage.jsx. -/
def isHiddenField (name : String) : Bool :=
  name == "_path" || name == "_gid" || name == "_model" ||
    name == "_attachment_for" || name == "_attachment_type"

/-- A widget component as far as EditPage observes it: the optional
serialize and deserialize hooks.  The registry lookup with fallback is
kept abstract as a total function `String → Widget`, matching
`widgets.getWidgetComponentWithFallback`, whose module is an external
collaborator. -/
structure Widget where
  serializeValue : Option (JsValue → JsValue)
  deserializeValue : Option (JsValue → JsValue)

/-- `onValueChange(field, value)`: store `value || ''` under the field
name via a copy-on-write update of `recordData`; no other state key is
touched. -/
def onValueChange (st : EditorState) (fieldName : String) (value : JsValue) :
    EditorState :=
  { st with
    recordData :=
      some (setKey (st.recordData.getD []) fieldName
        (jsOr value (JsValue.str ""))) }

/-- The value displayed for one field in `renderFormFields`: a defined
pending edit is used as is; otherwise the initial datum defaulted to the
empty string when falsy or absent, passed through the widget hook
`deserializeValue` when the widget has one. -/
def displayedValue (getWidget : String → Widget) (st : EditorState)
    (f : Field) : JsValue :=
  match jsLookup (st.recordData.getD []) f.name with
  | some v => v
  | none =>
      let raw :=
        match jsLookup (st.recordInitialData.getD []) f.name with
        | some v0 => jsOr v0 (JsValue.str "")
        | none => JsValue.str ""
      match (getWidget f.type).deserializeValue with
      | some deser => deser raw
      | none => raw

/-- The observable content of one rendered field row. -/
structure RenderedField where
  name : String
  label : String
  className : String
  value : JsValue
deriving DecidableEq, Repr

/-- One iteration of the `renderFormFields` map: hidden fields yield
`null`, other fields yield a row with the system-field class for names
starting with an underscore. -/
def renderField (getWidget : String → Widget) (st : EditorState)
    (f : Field) : Option RenderedField :=
  if isHiddenField f.name then none
  else
    some
      { name := f.name
        label := f.label
        className :=
          if f.name.startsWith "_" then "field system-field" else "field"
        value := displayedValue getWidget st f }

/-- `renderFormFields`: map every schema field to its rendered row or
`null`. -/
def renderFormFields (getWidget : String → Widget) (st : EditorState) :
    List (Option RenderedField) :=
  (st.recordDataModel.getD { fields := [] }).fields.map
    (renderField getWidget st)

/-- The submission value resolved by `getValues` for one field: a
defined pending edit passed through the widget hook `serializeValue` when
present, otherwise the raw initial datum (possibly `undefined`). -/
def getValuesEntry (getWidget : String → Widget) (st : EditorState)
    (f : Field) : Option JsValue :=
  match jsLookup (st.recordData.getD []) f.name with
  | some v =>
      some
        (match (getWidget f.type).serializeValue with
         | some ser => ser v
         | none => v)
  | none => jsLookup (st.recordInitialData.getD []) f.name

/-- `getValues`: the submission mapping, one entry per schema field. -/
def getValues (getWidget : String → Widget) (st : EditorState) :
    List (String × Option JsValue) :=
  (st.recordDataModel.getD { fields := [] }).fields.map
    (fun f => (f.name, getValuesEntry getWidget st f))

/-- `getLabel`: `null` before any load; afterwards the label of an
existing record, else its id. -/
def getLabel (st : EditorState) : Option String :=
  match st.recordInfo with
  | none => none
  | some ri => some (if ri.«exists» then ri.label else ri.id)

/-- The observable content of the page rendered by `EditPage.render`. -/
structure RenderedPage where
  heading : String
  fields : List (Option RenderedField)
deriving DecidableEq, Repr

/-- `render`: `null` while `recordInfo` is `null`, otherwise the heading
and the form fields. -/
def render (getWidget : String → Widget) (st : EditorState) :
    Option RenderedPage :=
  match st.recordInfo with
  | none => none
  | some _ =>
      some
        { heading := (getLabel st).getD ""
          fields := renderFormFields getWidget st }

/-- The mounted `EditPage` component: the routed record path (delivered
through the router props), the React state and the rawrecord requests
currently in flight, in issue order.  `getRecordPath`, supplied by the
`RecordState` mixin, is modelled from the spec: it returns the currently
routed record path, here the `path` component. -/
structure Component where
  path : String
  state : EditorState
  pending : List String
deriving DecidableEq, Repr

/-- `syncEditor`: issue a rawrecord load for the current record path.
The response handler is unconditional, so the request is recorded only
by the path it was issued for. -/
def syncEditor (c : Component) : Component :=
  { c with pending := c.pending ++ [c.path] }

/-- `componentDidMount` on a freshly constructed component: initial
state from `getInitialState`, then `syncEditor`. -/
def mountComponent (path : String) : Component :=
  syncEditor { path := path, state := getInitialState, pending := [] }

/-- Events the event loop can deliver to a mounted `EditPage`:
new props (a routed path change), resolution or rejection of the i-th
in-flight request, and a widget `onChange` with a field and a value. -/
inductive Event where
  | receiveProps (newPath : String)
  | resolve (i : Nat)
  | reject (i : Nat)
  | valueChange (f : Field) (v : JsValue)
deriving DecidableEq, Repr

/-- Whether a widget for field `f` is currently on screen, and hence
able to fire `onValueChange`: the page must be rendered (`recordInfo`
loaded) and `f` must be a non-hidden field of the loaded schema. -/
def fieldRendered (c : Component) (f : Field) : Bool :=
  c.state.recordInfo.isSome &&
    (match c.state.recordDataModel with
     | some dm => decide (f ∈ dm.fields) && !isHiddenField f.name
     | none => false)

/-- One event-loop step of the component, against a deterministic
server mapping each path to its rawrecord response.
`componentWillReceiveProps` runs `syncEditor` for the new path and keeps
the state; a resolution applies the response of the path the request was
issued for, unconditionally; a rejection has no handler and changes
nothing but the in-flight set; an edit goes through `onValueChange` when
its widget is on screen. -/
def step (server : String → RawRecordResp) (c : Component) :
    Event → Component
  | .receiveProps p => syncEditor { c with path := p }
  | .resolve i =>
      match c.pending[i]? with
      | some p =>
          { c with
            state := applyResponse (server p)
            pending := c.pending.eraseIdx i }
      | none => c
  | .reject i =>
      match c.pending[i]? with
      | some _ => { c with pending := c.pending.eraseIdx i }
      | none => c
  | .valueChange f v =>
      if fieldRendered c f then
        { c with state := onValueChange c.state f.name v }
      else c

/-- Run a list of events from a component state. -/
def run (server : String → RawRecordResp) (c : Component)
    (evs : List Event) : Component :=
  evs.foldl (step server) c

/-- A component state the event loop can actually produce: some event
list run from a freshly mounted component. -/
def Reachable (server : String → RawRecordResp) (c : Component) : Prop :=
  ∃ p evs, c = run server (mountComponent p) evs

/-- One ancestor-chain entry of a `/pathinfo` response. -/
structure Segment where
  path : String
  id : String
  label : String
  «exists» : Bool
  can_have_children : Bool
  url_path : String
deriving DecidableEq, Repr

/-- The `recordPathInfo` state of `BreadCrumbs` once loaded: the path it
was fetched for and the returned segments. -/
structure PathInfo where
  path : String
  segments : List Segment
deriving DecidableEq, Repr

/-- The observable content of one rendered breadcrumb link. -/
structure CrumbEntry where
  target : String
  path : String
  label : String
  className : String
deriving DecidableEq, Repr

/-- One iteration of the crumb map in `BreadCrumbs.render`: the link
re-embeds the current alt into the segment path; a non-existing segment
is labelled by its raw id and marked with the missing class.
`getUrlRecordPathWithAlt`, supplied by the `RecordComponent` base class,
is modelled from the spec: it maps a record path to the alt-qualified
URL path, kept abstract as the function `withAlt`. -/
def renderSegmentCrumb (withAlt : String → String) (target : String)
    (item : Segment) : CrumbEntry :=
  { target := target
    path := withAlt item.path
    label := if item.«exists» then item.label else item.id
    className :=
      if item.«exists» then "record-crumb"
      else "record-crumb missing-record-crumb" }

/-- The fallback crumb rendered while no path info is available: a
single link back to the root overview.  `trans` is the injected
translation collaborator `i18n.trans`. -/
def fallbackCrumb (trans : String → String) : CrumbEntry :=
  { target := "edit"
    path := "root"
    label := trans "BACK_TO_OVERVIEW"
    className := "" }

/-- The crumb list of `BreadCrumbs.render`: the mapped segments when
`recordPathInfo` is non-null, else the single fallback entry.  The
target is `preview` when the preview view is active, else `edit`. -/
def renderCrumbList (withAlt trans : String → String) (isPreview : Bool)
    (rpi : Option PathInfo) : List CrumbEntry :=
  let target := if isPreview then "preview" else "edit"
  match rpi with
  | some info => info.segments.map (renderSegmentCrumb withAlt target)
  | none => [fallbackCrumb trans]

/-- The trailing add-child affordance: `lastItem` is assigned only
inside the segment map, so it is the last segment when the loaded
segment list is non-empty and `null` otherwise, and the entry renders
exactly when it exists and allows children. -/
def addChildCrumb (withAlt : String → String) (rpi : Option PathInfo) :
    Option CrumbEntry :=
  match rpi with
  | some info =>
      match info.segments.getLast? with
      | some lastItem =>
          if lastItem.can_have_children then
            some
              { target := "add-child"
                path := withAlt lastItem.path
                label := "+"
                className := "new-record-crumb" }
          else none
      | none => none
  | none => none

/-- The rendered breadcrumb trail: the crumb entries plus the optional
add-child entry (the surrounding static chrome — publish link, close
link — carries no record data and is omitted). -/
structure BreadcrumbTrail where
  crumbs : List CrumbEntry
  addChild : Option CrumbEntry
deriving DecidableEq, Repr

/-- `BreadCrumbs.render` as a function of the loaded state. -/
def renderBreadcrumbs (withAlt trans : String → String) (isPreview : Bool)
    (rpi : Option PathInfo) : BreadcrumbTrail :=
  { crumbs := renderCrumbList withAlt trans isPreview rpi
    addChild := addChildCrumb withAlt rpi }

/-- Whether an event is the resolution of an in-flight request. -/
def Event.isResolve : Event → Bool
  | .resolve _ => true
  | _ => false

theorem step_state_eq_of_info_none (server : String → RawRecordResp)
    (c : Component) (e : Event) (hc : c.state.recordInfo = none)
    (he : e.isResolve = false) : (step server c e).state = c.state := by
  cases e with
  | receiveProps p => rfl
  | resolve i => simp [Event.isResolve] at he
  | reject i => cases h : c.pending[i]? <;> simp [step, h]
  | valueChange f v => simp [step, fieldRendered, hc]

theorem run_state_eq_of_no_resolve (server : String → RawRecordResp)
    (c : Component) (evs : List Event) (hc : c.state.recordInfo = none)
    (hev : ∀ e ∈ evs, e.isResolve = false) :
    (run server c evs).state = c.state := by
  induction evs generalizing c with
  | nil => rfl
  | cons e rest ih =>
      have h1 := step_state_eq_of_info_none server c e hc (hev e (by simp))
      have h2 : (step server c e).state.recordInfo = none := by rw [h1, hc]
      calc (run server c (e :: rest)).state
          = (run server (step server c e) rest).state := rfl
        _ = (step server c e).state :=
            ih (step server c e) h2 (fun e' he' => hev e' (List.mem_cons_of_mem _ he'))
        _ = c.state := h1

/-- The pending-edit object never holds a hidden field name. -/
def HiddenFree (st : EditorState) : Prop :=
  ∀ name, isHiddenField name = true →
    jsLookup (st.recordData.getD []) name = none

theorem not_hidden_of_fieldRendered (c : Component) (f : Field)
    (h : fieldRendered c f = true) : isHiddenField f.name = false := by
  unfold fieldRendered at h
  cases hdm : c.state.recordDataModel with
  | none => rw [hdm] at h; simp at h
  | some dm =>
      rw [hdm] at h
      simp [Bool.and_eq_true] at h
      simpa using h.2.2

theorem hiddenFree_step (server : String → RawRecordResp) (c : Component)
    (e : Event) (hc : HiddenFree c.state) : HiddenFree (step server c e).state := by
  cases e with
  | receiveProps p => exact hc
  | resolve i =>
      cases h : c.pending[i]? with
      | none => simpa [step, h] using hc
      | some p => intro name hn; simp [step, h, applyResponse, jsLookup]
  | reject i =>
      cases h : c.pending[i]? <;> simpa [step, h] using hc
  | valueChange f v =>
      by_cases hr : fieldRendered c f
      · intro name hn
        have hne : name ≠ f.name := by
          intro hEq
          rw [hEq] at hn
          rw [not_hidden_of_fieldRendered c f hr] at hn
          exact Bool.false_ne_true hn
        simp only [step, hr, if_true, onValueChange, Option.getD_some]
        rw [jsLookup_setKey_ne _ _ _ _ hne]
        exact hc name hn
      · simpa [step, hr] using hc

theorem hiddenFree_run (server : String → RawRecordResp) (c : Component)
    (evs : List Event) (hc : HiddenFree c.state) :
    HiddenFree (run server c evs).state := by
  induction evs generalizing c with
  | nil => exact hc
  | cons e rest ih => exact ih (step server c e) (hiddenFree_step server c e hc)

theorem hiddenFree_reachable (server : String → RawRecordResp)
    (c : Component) (h : Reachable server c) : HiddenFree c.state := by
  obtain ⟨p, evs, rfl⟩ := h
  exact hiddenFree_run server _ evs (fun name _ => rfl)

/-- A deterministic test server whose responses identify the requested
path in both the data and the record info. -/
def serverAB : String → RawRecordResp := fun p =>
  { data := [("title", JsValue.str p)]
    datamodel :=
      { fields := [{ name := "title", label := "Title", type := "string" }] }
    record_info := { «exists» := true, label := p, id := p } }

/-- A widget registry all of whose widgets define neither serialize nor
deserialize hooks. -/
def plainWidget : String → Widget :=
  fun _ => { serializeValue := none, deserializeValue := none }

/-- The title field used in concrete test states. -/
def fTitle : Field := { name := "title", label := "Title", type := "string" }

/-- A loaded editor state with stored title "A" and no pending edits. -/
def stA : EditorState :=
  { recordInitialData := some [("title", JsValue.str "A")]
    recordData := some []
    recordDataModel := some { fields := [fTitle] }
    recordInfo := some { «exists» := true, label := "T", id := "t" } }

/-- The same state with a pending edit setting title to "B". -/
def stB : EditorState :=
  { stA with recordData := some [("title", JsValue.str "B")] }

/-- C1: the response handler installed by `syncEditor` applies its
response unconditionally, so at the concrete interleaving — mount at
path "/a", path change to "/b" before the first load resolves, "/b"
response arrives, then "/a" late response arrives — the stale "/a"
response overwrites the state already advanced to "/b": after both
responses are handled the record state reflects "/a" although "/b" was
issued (and applied) last.  This evaluates the code at the failing input
of the claimed ordering guarantee. -/
theorem c1_stale_response_overwrites :
    (run serverAB (mountComponent "/a")
      [Event.receiveProps "/b", Event.resolve 1, Event.resolve 0]).path
        = "/b" ∧
    (run serverAB (mountComponent "/a")
      [Event.receiveProps "/b", Event.resolve 1, Event.resolve 0]).state.recordInfo
        = some { «exists» := true, label := "/a", id := "/a" } ∧
    (run serverAB (mountComponent "/a")
      [Event.receiveProps "/b", Event.resolve 1, Event.resolve 0]).state.recordInfo
        ≠ some { «exists» := true, label := "/b", id := "/b" } := by
  refine ⟨rfl, by decide, by decide⟩

/-- C2 counterexample: mount at "/a", let the load resolve, then change
the routed path to "/b".  The load for "/b" is in flight and has not
resolved, yet render does not return null — it still shows the record
loaded for "/a" — refuting both the claimed transition back to a
null-rendering Loading state on every path change and the claimed
invariant that render is null whenever the data of the currently routed
path is unloaded. -/
theorem c2_counterexample :
    (run serverAB (mountComponent "/a")
      [Event.resolve 0, Event.receiveProps "/b"]).path = "/b" ∧
    (run serverAB (mountComponent "/a")
      [Event.resolve 0, Event.receiveProps "/b"]).pending = ["/b"] ∧
    render plainWidget (run serverAB (mountComponent "/a")
      [Event.resolve 0, Event.receiveProps "/b"]).state ≠ none ∧
    (run serverAB (mountComponent "/a")
      [Event.resolve 0, Event.receiveProps "/b"]).state.recordInfo
        = some { «exists» := true, label := "/a", id := "/a" } := by
  refine ⟨rfl, by decide, by decide, by decide⟩

/-- C2 (amended): when the routed path changes, a new load is issued for
it but the component state is left untouched, so a previously loaded
record keeps rendering until the new load resolves; render returns null
exactly in the states in which no load has ever resolved (`recordInfo`
still null). -/
theorem c2_path_change_keeps_state (server : String → RawRecordResp)
    (getWidget : String → Widget) (c : Component) (p : String) :
    (step server c (Event.receiveProps p)).state = c.state ∧
    (step server c (Event.receiveProps p)).pending = c.pending ++ [p] ∧
    (render getWidget c.state = none ↔ c.state.recordInfo = none) := by
  refine ⟨rfl, rfl, ?_⟩
  cases h : c.state.recordInfo <;> simp [render, h]

/-- C3 counterexample: a loaded path-info response whose segment list is
empty renders an empty trail — zero entries, not the claimed single
fallback entry. -/
theorem c3_counterexample :
    (renderBreadcrumbs id id false
      (some { path := "/x", segments := [] })).crumbs = [] ∧
    (renderBreadcrumbs id id false
      (some { path := "/x", segments := [] })).crumbs.length ≠ 1 := by
  exact ⟨rfl, by decide⟩

/-- C3 (amended): the single fallback entry — target "edit", path
"root" — is rendered exactly while path info is unavailable
(`recordPathInfo` null); a loaded response with a literally empty
segment list instead renders an empty trail and no add-child entry. -/
theorem c3_fallback_only_when_unavailable (withAlt trans : String → String)
    (isPreview : Bool) (p : String) :
    (renderBreadcrumbs withAlt trans isPreview none).crumbs
      = [fallbackCrumb trans] ∧
    (fallbackCrumb trans).target = "edit" ∧
    (fallbackCrumb trans).path = "root" ∧
    (renderBreadcrumbs withAlt trans isPreview
      (some { path := p, segments := [] })).crumbs = [] ∧
    (renderBreadcrumbs withAlt trans isPreview
      (some { path := p, segments := [] })).addChild = none := by
  exact ⟨rfl, rfl, rfl, rfl, rfl⟩

/-- C4 counterexample: stored title value 0, no pending edit, widget
with no deserialize hook.  The claim says the displayed value is the raw
stored value 0; the code applies the falsy default and displays the
empty string instead. -/
theorem c4_counterexample :
    displayedValue plainWidget
      { recordInitialData := some [("title", JsValue.num 0)]
        recordData := some []
        recordDataModel := some { fields := [fTitle] }
        recordInfo := some { «exists» := true, label := "T", id := "t" } }
      fTitle = JsValue.str "" ∧
    JsValue.str "" ≠ JsValue.num 0 := by
  exact ⟨rfl, by decide⟩

/-- C4 (amended): a defined pending edit is displayed as is with no
deserialize step; otherwise the displayed value is the initial datum
with falsy or missing values replaced by the empty string, passed
through the widget deserializeValue when the widget defines one, else
used as is. -/
theorem c4_display_precedence (getWidget : String → Widget)
    (st : EditorState) (f : Field) :
    (∀ v, jsLookup (st.recordData.getD []) f.name = some v →
      displayedValue getWidget st f = v) ∧
    (∀ v0, jsLookup (st.recordData.getD []) f.name = none →
      jsLookup (st.recordInitialData.getD []) f.name = some v0 →
      displayedValue getWidget st f =
        match (getWidget f.type).deserializeValue with
        | some deser => deser (jsOr v0 (JsValue.str ""))
        | none => jsOr v0 (JsValue.str "")) ∧
    (jsLookup (st.recordData.getD []) f.name = none →
      jsLookup (st.recordInitialData.getD []) f.name = none →
      displayedValue getWidget st f =
        match (getWidget f.type).deserializeValue with
        | some deser => deser (JsValue.str "")
        | none => JsValue.str "") := by
  refine ⟨?_, ?_, ?_⟩
  · intro v hv
    simp [displayedValue, hv]
  · intro v0 hd hi
    simp [displayedValue, hd, hi]
  · intro hd hi
    simp [displayedValue, hd, hi]

/-- C4 witness: the concrete precedence examples of the claim — with a
pending edit setting title to "B" over stored "A" the displayed value is
"B"; with no pending edit it is "A". -/
theorem c4_display_precedence_witness :
    displayedValue plainWidget stB fTitle = JsValue.str "B" ∧
    displayedValue plainWidget stA fTitle = JsValue.str "A" := by
  constructor
  · exact (c4_display_precedence plainWidget stB fTitle).1
      (JsValue.str "B") (by decide)
  · exact ((c4_display_precedence plainWidget stA fTitle).2.1
      (JsValue.str "A") (by decide) (by decide)).trans (by decide)

/-- A test server whose schema leads with the hidden `_path` field. -/
def serverHidden : String → RawRecordResp := fun p =>
  { data := [("_path", JsValue.str p), ("title", JsValue.str "A")]
    datamodel :=
      { fields := [{ name := "_path", label := "Path", type := "string" },
                   fTitle] }
    record_info := { «exists» := true, label := "L", id := "i" } }

/-- C5: in every reachable editor state, a field whose name is one of
the fixed hidden identifiers renders to null, no rendered row ever
carries a hidden name regardless of schema order, and the submission
entry resolved for it is the stored initial value unchanged (pending
edits never hold hidden names, so no serialize hook applies); when the
field is part of the loaded schema that entry is part of the submission
mapping. -/
theorem c5_hidden_fields (server : String → RawRecordResp)
    (getWidget : String → Widget) (c : Component)
    (hreach : Reachable server c) (f : Field)
    (hhid : isHiddenField f.name = true) :
    renderField getWidget c.state f = none ∧
    (∀ r ∈ renderFormFields getWidget c.state, ∀ rf, r = some rf →
      isHiddenField rf.name = false) ∧
    getValuesEntry getWidget c.state f
      = jsLookup (c.state.recordInitialData.getD []) f.name ∧
    (f ∈ (c.state.recordDataModel.getD { fields := [] }).fields →
      (f.name, jsLookup (c.state.recordInitialData.getD []) f.name)
        ∈ getValues getWidget c.state) := by
  have hfree := hiddenFree_reachable server c hreach
  have hval : getValuesEntry getWidget c.state f
      = jsLookup (c.state.recordInitialData.getD []) f.name := by
    have h0 := hfree f.name hhid
    simp [getValuesEntry, h0]
  refine ⟨by simp [renderField, hhid], ?_, hval, ?_⟩
  · intro r hr rf hrf
    obtain ⟨f0, hf0, hEq⟩ := List.mem_map.mp hr
    rw [hrf] at hEq
    by_cases hh : isHiddenField f0.name = true
    · simp [renderField, hh] at hEq
    · have hh' : isHiddenField f0.name = false := by simpa using hh
      simp [renderField, hh'] at hEq
      rw [← hEq]
      exact hh'
  · intro hf
    exact List.mem_map.mpr ⟨f, hf, by rw [hval]⟩

/-- C5 witness: a component that mounted at "/a" and received its
response has `_path` in its loaded schema; the rendered row for `_path`
is null while the resolved submission entry is the stored value "/a". -/
theorem c5_hidden_fields_witness :
    renderField plainWidget
      (run serverHidden (mountComponent "/a") [Event.resolve 0]).state
      { name := "_path", label := "Path", type := "string" } = none ∧
    getValuesEntry plainWidget
      (run serverHidden (mountComponent "/a") [Event.resolve 0]).state
      { name := "_path", label := "Path", type := "string" }
      = some (JsValue.str "/a") := by
  have h := c5_hidden_fields serverHidden plainWidget
    (run serverHidden (mountComponent "/a") [Event.resolve 0])
    ⟨"/a", [Event.resolve 0], rfl⟩
    { name := "_path", label := "Path", type := "string" } (by decide)
  exact ⟨h.1, h.2.2.1.trans (by decide)⟩

/-- C6: a rejected rawrecord load leaves the component state unchanged
(the promise has no rejection handler), and a component that never
receives a resolution — whatever mix of prop changes, rejections and
attempted edits it sees — keeps rendering null: no Error state exists
and the view never moves past Loading. -/
theorem c6_load_failure_silent (server : String → RawRecordResp)
    (getWidget : String → Widget) (c : Component) (i : Nat) (p : String)
    (evs : List Event) (hres : ∀ e ∈ evs, e.isResolve = false) :
    (step server c (Event.reject i)).state = c.state ∧
    render getWidget (run server (mountComponent p) evs).state = none := by
  constructor
  · cases h : c.pending[i]? <;> simp [step, h]
  · rw [run_state_eq_of_no_resolve server (mountComponent p) evs rfl hres]
    rfl

/-- C6 witness: a concrete component whose only load is rejected, then
sees another path change, still renders null; and the rejection step
itself preserves the state of a freshly mounted component. -/
theorem c6_load_failure_silent_witness :
    (step serverAB (mountComponent "/a") (Event.reject 0)).state
      = (mountComponent "/a").state ∧
    render plainWidget (run serverAB (mountComponent "/b")
      [Event.reject 0, Event.receiveProps "/c"]).state = none :=
  c6_load_failure_silent serverAB plainWidget (mountComponent "/a") 0 "/b"
    [Event.reject 0, Event.receiveProps "/c"] (by decide)

/-- C7: after `onValueChange(field, value)` the pending-edit object maps
the field name to a defined value: `value` itself unless falsy, else the
empty-string sentinel — so the key is present (never undefined) even
when the edit clears the field. -/
theorem c7_pending_edit_always_defined (st : EditorState)
    (rd : List (String × JsValue)) (hrd : st.recordData = some rd)
    (f : Field) (v : JsValue) :
    jsLookup ((onValueChange st f.name v).recordData.getD []) f.name
      = some (if v.falsy then JsValue.str "" else v) := by
  simp [onValueChange, hrd, jsOr, jsLookup_setKey_self]

/-- C7 witness: clearing the edited title with the falsy empty string
still leaves the key present, bound to the empty sentinel. -/
theorem c7_pending_edit_always_defined_witness :
    jsLookup ((onValueChange stB fTitle.name (JsValue.str "")).recordData.getD [])
      fTitle.name = some (JsValue.str "") := by
  exact (c7_pending_edit_always_defined stB [("title", JsValue.str "B")]
    (by decide) fTitle (JsValue.str "")).trans (by decide)

/-- C8: `onValueChange` is a copy-on-write point update: the new
pending-edit object is `setKey` of the old one — which maps the edited
name to the stored value and agrees with the old object on every other
key, so any reference to the previous object observes exactly the same
entries — and the initial data, data model and record info components of
the state are untouched. -/
theorem c8_immutable_point_update (st : EditorState)
    (rd : List (String × JsValue)) (hrd : st.recordData = some rd)
    (f : Field) (v : JsValue) :
    (onValueChange st f.name v).recordData
      = some (setKey rd f.name (jsOr v (JsValue.str ""))) ∧
    jsLookup (setKey rd f.name (jsOr v (JsValue.str ""))) f.name
      = some (jsOr v (JsValue.str "")) ∧
    (∀ k, k ≠ f.name →
      jsLookup (setKey rd f.name (jsOr v (JsValue.str ""))) k
        = jsLookup rd k) ∧
    (onValueChange st f.name v).recordInitialData = st.recordInitialData ∧
    (onValueChange st f.name v).recordDataModel = st.recordDataModel ∧
    (onValueChange st f.name v).recordInfo = st.recordInfo := by
  refine ⟨by simp [onValueChange, hrd], jsLookup_setKey_self _ _ _,
    fun k hk => jsLookup_setKey_ne _ _ _ _ hk, rfl, rfl, rfl⟩

/-- C8 witness: editing the title of a loaded state leaves the record
info untouched and every other key of the previous pending-edit object
unchanged. -/
theorem c8_immutable_point_update_witness :
    (onValueChange stB fTitle.name (JsValue.str "C")).recordInfo
      = stB.recordInfo ∧
    jsLookup (setKey [("title", JsValue.str "B")] fTitle.name
      (jsOr (JsValue.str "C") (JsValue.str ""))) "body"
      = jsLookup [("title", JsValue.str "B")] "body" := by
  have h := c8_immutable_point_update stB [("title", JsValue.str "B")]
    (by decide) fTitle (JsValue.str "C")
  exact ⟨h.2.2.2.2.2, h.2.2.1 "body" (by decide)⟩

/-- C9: for a loaded non-empty segment list, the add-child entry is
rendered iff the last segment allows children; when it does, the single
entry links to the add-child destination with the alt-qualified path of
that segment, and no trail crumb ever carries the add-child target. -/
theorem c9_add_child_affordance (withAlt trans : String → String)
    (isPreview : Bool) (p : String) (segs : List Segment) (h : segs ≠ []) :
    ((renderBreadcrumbs withAlt trans isPreview
        (some { path := p, segments := segs })).addChild.isSome
      ↔ (segs.getLast h).can_have_children = true) ∧
    ((segs.getLast h).can_have_children = true →
      (renderBreadcrumbs withAlt trans isPreview
        (some { path := p, segments := segs })).addChild
        = some { target := "add-child", path := withAlt (segs.getLast h).path,
                 label := "+", className := "new-record-crumb" }) ∧
    (∀ e ∈ (renderBreadcrumbs withAlt trans isPreview
        (some { path := p, segments := segs })).crumbs,
      e.target ≠ "add-child") := by
  have hl : segs.getLast? = some (segs.getLast h) :=
    List.getLast?_eq_getLast segs h
  refine ⟨?_, ?_, ?_⟩
  · cases hc : (segs.getLast h).can_have_children <;>
      simp [renderBreadcrumbs, addChildCrumb, hl, hc]
  · intro hc
    simp [renderBreadcrumbs, addChildCrumb, hl, hc]
  · intro e he
    simp [renderBreadcrumbs, renderCrumbList] at he
    obtain ⟨s, hs, hEq⟩ := he
    rw [← hEq]
    cases isPreview <;> simp [renderSegmentCrumb]

/-- A concrete existing segment that allows children. -/
def segHome : Segment :=
  { path := "/", id := "root", label := "Home", «exists» := true,
    can_have_children := true, url_path := "/" }

/-- C9 witness: a one-segment trail whose segment allows children
renders exactly the add-child entry for the path of that segment. -/
theorem c9_add_child_affordance_witness :
    (renderBreadcrumbs id id false
      (some { path := "/", segments := [segHome] })).addChild
      = some { target := "add-child", path := "/", label := "+",
               className := "new-record-crumb" } := by
  exact ((c9_add_child_affordance id id false "/" [segHome]
    (by decide)).2.1 (by decide)).trans (by decide)

/-- C10: every applied rawrecord response resets the pending edits to
the empty object and replaces the initial data from the response — so
in-flight edits are discarded, never merged — and new props issue a
fresh load even when the routed path is unchanged, whose resolution thus
also discards the edits. -/
theorem c10_response_resets_pending_edits (server : String → RawRecordResp)
    (c : Component) (i : Nat) (p : String) (hp : c.pending[i]? = some p) :
    (step server c (Event.resolve i)).state.recordData = some [] ∧
    (step server c (Event.resolve i)).state.recordInitialData
      = some (server p).data ∧
    (step server c (Event.receiveProps c.path)).pending
      = c.pending ++ [c.path] := by
  refine ⟨?_, ?_, rfl⟩ <;> simp [step, hp, applyResponse]

/-- C10 witness: a component that loaded "/a", edited the title, and
received new props for the same path "/a" has a fresh request in
flight; when that reload resolves, the pending edit is discarded. -/
theorem c10_response_resets_pending_edits_witness :
    (run serverAB (mountComponent "/a")
      [Event.resolve 0, Event.valueChange fTitle (JsValue.str "B"),
       Event.receiveProps "/a"]).state.recordData
      = some [("title", JsValue.str "B")] ∧
    (step serverAB (run serverAB (mountComponent "/a")
      [Event.resolve 0, Event.valueChange fTitle (JsValue.str "B"),
       Event.receiveProps "/a"]) (Event.resolve 0)).state.recordData
      = some [] := by
  refine ⟨by decide, ?_⟩
  exact (c10_response_resets_pending_edits serverAB
    (run serverAB (mountComponent "/a")
      [Event.resolve 0, Event.valueChange fTitle (JsValue.str "B"),
       Event.receiveProps "/a"]) 0 "/a" (by decide)).1

end Lektor
